import Mathlib

/-!
Shallow embedding of the core of the zotero-mcp repository: the Zotero Web
API client (`src/src/zotero-client.ts`), the attachment cache manager
(`src/unnamed/part_007`), and the translation-server client
(`src/src/translation-client.ts`).

Conventions of the embedding:
* JS epoch-millisecond timestamps (`Date.now()`) are `Int` values supplied
  as explicit parameters; a timed wait of `w` milliseconds advances the
  clock by exactly `w` (a zero-drift, zero-network-latency model).
* HTTP responses are explicit values: a status code, the four headers the
  client parses, and a body text.  `fetch` itself is not modelled; each
  state-transition function takes the response the server produced.
* Mutation of the `ZoteroClient` instance fields becomes explicit state
  passing over `ClientState`; a thrown JS exception becomes `Except.error`.
  Mutations performed before a `throw` are kept in the returned state,
  exactly as the real instance fields keep them.
* The on-disk cache is a function from path to file data; node `fs` calls
  become updates and lookups of that function.
-/

/-- The response headers `ZoteroClient.parseHeaders` extracts (each is
`undefined`/`none` when the header is absent). -/
structure ZoteroResponseHeaders where
  totalResults : Option Nat
  lastModifiedVersion : Option Nat
  backoff : Option Nat
  retryAfter : Option Nat
deriving DecidableEq, Repr

/-- An HTTP response as seen by the client: status code, the parsed
headers, and the body text used in error messages. -/
structure Response where
  status : Nat
  headers : ZoteroResponseHeaders
  body : String
deriving DecidableEq, Repr

/-- The mutable fields of a `ZoteroClient` instance:
`libraryVersion`, `lastRequestTime`, `backoffUntil`, `requestInterval`. -/
structure ClientState where
  libraryVersion : Option Nat
  lastRequestTime : Int
  backoffUntil : Int
  requestInterval : Int
deriving DecidableEq, Repr

/-- The fresh state of a client instance (field initializers in the class
body; `requestInterval` defaults to `DEFAULT_REQUEST_INTERVAL = 1000`). -/
def ClientState.initial : ClientState :=
  { libraryVersion := none, lastRequestTime := 0, backoffUntil := 0,
    requestInterval := 1000 }

/-- Errors thrown by the client: the dedicated rate-limit error
(`Rate limited. Please wait N seconds.`) and the generic
`Zotero API error (status): body`. -/
inductive ClientError where
  | rateLimited (waitSeconds : Nat)
  | apiError (status : Nat) (body : String)
deriving DecidableEq, Repr

/-- `response.ok` of the fetch API: status in the range 200-299. -/
def responseOk (status : Nat) : Bool :=
  200 ≤ status && status < 300

/-- JS truthiness of the parsed numeric header `Option Nat`: a present
value is truthy exactly when it is nonzero (`if (responseHeaders.backoff)`). -/
def isTruthy (o : Option Nat) : Bool :=
  match o with
  | some v => v ≠ 0
  | none => false

/-- JS `a || d` over a parsed numeric header: falls through to the default
when the header is absent or its value is `0` (falsy). -/
def jsOrNat (o : Option Nat) (d : Nat) : Nat :=
  match o with
  | some v => if v = 0 then d else v
  | none => d

/-- `ZoteroClient.throttle` (zotero-client.ts lines 35-51).  `now` is
`Date.now()` sampled once at entry.  The method first sleeps the remaining
backoff window, then sleeps the remaining inter-request interval — the
interval remainder is computed from the entry-time `now`, not re-sampled
after the first sleep — and finally stamps `lastRequestTime` with the
post-sleep clock.  Returns the new state and the total time slept. -/
def throttle (st : ClientState) (now : Int) : ClientState × Int :=
  let w1 := if now < st.backoffUntil then st.backoffUntil - now else 0
  let elapsed := now - st.lastRequestTime
  let w2 := if elapsed < st.requestInterval then st.requestInterval - elapsed else 0
  ({ st with lastRequestTime := now + w1 + w2 }, w1 + w2)

/-- The response-processing tail of `ZoteroClient.request`
(zotero-client.ts lines 139-173), after the fetch resolved: update
`libraryVersion` from the `Last-Modified-Version` header, update
`backoffUntil` from a truthy `Backoff` header, then throw the dedicated
rate-limit error on status 429 (setting `backoffUntil` from
`retryAfter || backoff || 5` seconds), throw the generic API error on any
other non-ok status, and otherwise succeed returning the parsed headers.
`now` is `Date.now()` at response-processing time. -/
def requestStep (st : ClientState) (now : Int) (r : Response) :
    ClientState × Except ClientError ZoteroResponseHeaders :=
  let st1 := { st with libraryVersion :=
    match r.headers.lastModifiedVersion with
    | some v => some v
    | none => st.libraryVersion }
  let st2 := if isTruthy r.headers.backoff then
      { st1 with backoffUntil := now + (r.headers.backoff.getD 0 : Int) * 1000 }
    else st1
  if r.status = 429 then
    let waitTime := jsOrNat r.headers.retryAfter (jsOrNat r.headers.backoff 5)
    ({ st2 with backoffUntil := now + (waitTime : Int) * 1000 },
     .error (.rateLimited waitTime))
  else if responseOk r.status then
    (st2, .ok r.headers)
  else
    (st2, .error (.apiError r.status r.body))

/-- One full pass through `ZoteroClient.request`: throttle at time `t`,
then process the server's response; with a zero network latency the
response-time clock is `t` plus the time slept. -/
def requestWithThrottle (st : ClientState) (t : Int) (r : Response) :
    ClientState × Except ClientError ZoteroResponseHeaders :=
  let thr := throttle st t
  requestStep thr.1 (t + thr.2) r

/-- A sequence of `request` calls on one client instance, each given its
start time and the response the server produced for it. -/
def runRequests (st : ClientState) (evs : List (Int × Response)) : ClientState :=
  evs.foldl (fun s e => (requestWithThrottle s e.1 e.2).1) st

/-- The last `Last-Modified-Version` header value present in a sequence of
responses, falling back to `v0` when none carries the header. -/
def lastVersionHeader (evs : List (Int × Response)) (v0 : Option Nat) : Option Nat :=
  evs.foldl (fun acc e =>
    match e.2.headers.lastModifiedVersion with
    | some v => some v
    | none => acc) v0

/-- The PATCH-response handling of `ZoteroClient.updateItem`
(zotero-client.ts lines 349-359): on a non-ok status throw the generic API
error — without touching `backoffUntil`, without the 429 special case, and
before the `Last-Modified-Version` header is read; on success assign
`libraryVersion` from the header when present. -/
def updateItemPatchStep (st : ClientState) (r : Response) :
    ClientState × Except ClientError Unit :=
  if responseOk r.status then
    match r.headers.lastModifiedVersion with
    | some v => ({ st with libraryVersion := some v }, .ok ())
    | none => (st, .ok ())
  else
    (st, .error (.apiError r.status r.body))

/-- `ZoteroClient.updateItem` (zotero-client.ts lines 324-359) as a state
transition: the initial `getItem` is a full `request` (started at `t1`);
if it throws, `updateItem` propagates the error with the state the request
left behind.  Otherwise the item's version is sent as the
`If-Unmodified-Since-Version` precondition header (not otherwise
observable in this model), the client throttles again at `t2` and issues
the direct PATCH, whose response is handled by `updateItemPatchStep`.
`body` is the serialized partial update, which does not influence the
client state. -/
def updateItem (st : ClientState) (t1 t2 : Int) (getResp : Response)
    (patchResp : Response) (body : String) : ClientState × Except ClientError Unit :=
  let g := requestWithThrottle st t1 getResp
  match g.2 with
  | .error e => (g.1, .error e)
  | .ok _ =>
    let thr := throttle g.1 t2
    let _ := body
    updateItemPatchStep thr.1 patchResp

/-- `ZoteroClient.deleteItem` (zotero-client.ts lines 365-368): delegates
to `updateItem` with the partial update `{ deleted: 1 }`. -/
def deleteItem (st : ClientState) (t1 t2 : Int) (getResp : Response)
    (patchResp : Response) : ClientState × Except ClientError Unit :=
  updateItem st t1 t2 getResp patchResp "\x7b\"deleted\":1\x7d"

/-- `getItemFulltext`'s clamp of the requested chunk size:
`Math.min(Math.max(limit, 1000), 50000)` (zotero-client.ts line 428). -/
def actualLimit (limit : Int) : Nat :=
  (min (max limit 1000) 50000).toNat

/-- `getItemFulltext`'s clamp of the requested offset to the text:
`Math.min(Math.max(offset, 0), totalChars)` (zotero-client.ts line 431). -/
def actualOffset (offset : Int) (totalChars : Nat) : Nat :=
  (min (max offset 0) (totalChars : Int)).toNat

/-- The pagination record `getItemFulltext` returns (the
`indexedPages`/`totalPages` passthrough fields are omitted: they are
copied unchanged from the server payload). -/
structure FulltextResult where
  content : List Char
  offset : Nat
  length : Nat
  totalChars : Nat
  hasMore : Bool
  nextOffset : Option Nat
deriving DecidableEq, Repr

/-- The client-side pagination of `ZoteroClient.getItemFulltext`
(zotero-client.ts lines 424-446) over the full indexed text the server
returned (a JS string, modelled as its list of characters): clamp the
limit and offset, slice, and compute `hasMore`/`nextOffset`. -/
def getItemFulltext (fullContent : List Char) (offset limit : Int) : FulltextResult :=
  let totalChars := fullContent.length
  let aLimit := actualLimit limit
  let aOffset := actualOffset offset totalChars
  let slicedContent := (fullContent.drop aOffset).take aLimit
  let hasMore := aOffset + slicedContent.length < totalChars
  { content := slicedContent,
    offset := aOffset,
    length := slicedContent.length,
    totalChars := totalChars,
    hasMore := hasMore,
    nextOffset := if hasMore then some (aOffset + slicedContent.length) else none }

/-- The caller-side pagination loop over `getItemFulltext`: request the
chunk at `offset`, and while `hasMore` holds request again at the reported
`nextOffset`.  `fuel` bounds the recursion; any `fuel` exceeding the
remaining text length is enough (proved below). -/
def paginateFrom (fullContent : List Char) (limit : Int) (offset : Nat)
    (fuel : Nat) : List (List Char) :=
  match fuel with
  | 0 => []
  | fuel + 1 =>
    let c := getItemFulltext fullContent (offset : Int) limit
    match c.nextOffset with
    | some n => c.content :: paginateFrom fullContent limit n fuel
    | none => [c.content]

/-- A tag entry of an item's `data.tags` array. -/
structure ZTag where
  tag : String
deriving DecidableEq, Repr

/-- The merge performed by `ZoteroClient.addTagsToItem` (zotero-client.ts
lines 459-474) between the item's existing tags and the requested tag
names: names already present in the existing tag set (exact string
equality, as in the JS `Set`) are filtered out of the input, and the
survivors are appended.  The merged list is then written back through
`updateItem`. -/
def addTagsToItem (existingTags : List ZTag) (tags : List String) : List ZTag :=
  let existingTagNames := existingTags.map (fun t => t.tag)
  let newTags := tags.filter (fun tag => !(existingTagNames.contains tag))
  existingTags ++ newTags.map (fun tag => { tag := tag })

/-- The outcome of the probe `fetch` in `TranslationClient.isAvailable`:
either the server answered with some status, or the connection failed and
`fetch` rejected. -/
inductive ProbeOutcome where
  | answered (status : Nat)
  | connectionFailed
deriving DecidableEq, Repr

/-- `TranslationClient.isAvailable` (translation-client.ts lines 62-71):
`response.ok || response.status === 404` when the probe resolved, `false`
when it rejected; the catch-all makes the method total. -/
def isAvailable (o : ProbeOutcome) : Bool :=
  match o with
  | .answered status => responseOk status || status == 404
  | .connectionFailed => false

/-- The metadata sidecar record (`CacheMeta` in part_007). -/
structure CacheMeta where
  version : Nat
  downloadedAt : String
  filename : String
  contentType : String
  size : Nat
deriving DecidableEq, Repr

/-- The caller-supplied part of the sidecar (`Omit<CacheMeta,
'downloadedAt'>`). -/
structure CacheMetaInput where
  version : Nat
  filename : String
  contentType : String
  size : Nat
deriving DecidableEq, Repr

/-- Contents of one cache file: either a binary payload (modelled as the
string of bytes written so far) or a serialized metadata sidecar.  Reading
a `.meta.json` slot that holds binary data models a `JSON.parse` failure. -/
inductive FileData where
  | bin (content : String)
  | metaF (m : CacheMeta)
deriving DecidableEq, Repr

/-- The cache directory tree: each path holds a file or nothing. -/
def Disk : Type := String → Option FileData

/-- Write (create or overwrite) one file. -/
def writeD (d : Disk) (p : String) (fd : FileData) : Disk :=
  fun q => if q = p then some fd else d q

/-- Remove one file (the source half of a rename). -/
def eraseD (d : Disk) (p : String) : Disk :=
  fun q => if q = p then none else d q

/-- `path.join` of two segments. -/
def joinP (a b : String) : String := a ++ "/" ++ b

/-- The identity of a `CacheManager` instance: the resolved cache root and
the library-scope marker `libraryType + "_" + libraryId` (field
`libraryPrefix` in the source, renamed here). -/
structure CacheManagerM where
  cacheDir : String
  libraryScope : String
deriving DecidableEq, Repr

/-- `CacheManager.getItemCacheDir`: `cacheDir/files/<scope>/<itemKey>`. -/
def getItemCacheDir (cm : CacheManagerM) (itemKey : String) : String :=
  joinP (joinP (joinP cm.cacheDir "files") cm.libraryScope) itemKey

/-- `CacheManager.getMetaPath`: the `.meta.json` sidecar path. -/
def getMetaPath (cm : CacheManagerM) (itemKey : String) : String :=
  joinP (getItemCacheDir cm itemKey) ".meta.json"

/-- `CacheManager.getMeta` (part_007 lines 74-82): read and parse the
sidecar; any read or parse failure yields `null`. -/
def getMeta (d : Disk) (cm : CacheManagerM) (itemKey : String) : Option CacheMeta :=
  match d (getMetaPath cm itemKey) with
  | some (.metaF m) => some m
  | _ => none

/-- `stat` succeeding on a path. -/
def fileExistsAt (d : Disk) (p : String) : Bool :=
  (d p).isSome

/-- `CacheManager.isValid` (part_007 lines 87-102): the sidecar must
exist and parse, its recorded version must equal `currentVersion`, and the
file the sidecar names must still exist; every failure is `false`. -/
def isValid (d : Disk) (cm : CacheManagerM) (itemKey : String)
    (currentVersion : Nat) : Bool :=
  match getMeta d cm itemKey with
  | none => false
  | some meta =>
    if meta.version ≠ currentVersion then false
    else fileExistsAt d (joinP (getItemCacheDir cm itemKey) meta.filename)

/-- `CacheManager.getCachedFilePath` (part_007 lines 107-118): the path
the sidecar names, provided the sidecar parses and the file exists; the
sidecar's version is not consulted. -/
def getCachedFilePath (d : Disk) (cm : CacheManagerM) (itemKey : String) :
    Option String :=
  match getMeta d cm itemKey with
  | none => none
  | some meta =>
    let filePath := joinP (getItemCacheDir cm itemKey) meta.filename
    if fileExistsAt d filePath then some filePath else none

/-- `CacheManager.save` (part_007 lines 123-146): create the item
directory (directories are implicit in this model), write the binary
directly to its final path, then write the sidecar with `downloadedAt`
stamped from the clock.  Returns the new disk and the file path. -/
def save (d : Disk) (cm : CacheManagerM) (itemKey filename : String)
    (content : String) (meta : CacheMetaInput) (nowISO : String) : Disk × String :=
  let itemDir := getItemCacheDir cm itemKey
  let filePath := joinP itemDir filename
  let d1 := writeD d filePath (.bin content)
  let fullMeta : CacheMeta :=
    { version := meta.version, downloadedAt := nowISO,
      filename := meta.filename, contentType := meta.contentType,
      size := meta.size }
  let d2 := writeD d1 (getMetaPath cm itemKey) (.metaF fullMeta)
  (d2, filePath)

/-- A `save` call that aborts while `writeFile(filePath, content)` is in
flight: the final path is left holding a proper prefix of the intended
content (`j` bytes of it) and the sidecar write never happens. -/
def saveAbortedDuringWrite (d : Disk) (cm : CacheManagerM)
    (itemKey filename : String) (content : String) (j : Nat) : Disk :=
  writeD d (joinP (getItemCacheDir cm itemKey) filename) (.bin (content.take j))

/-- `CacheManager.getTempFilePath` (part_007 lines 175-177). -/
def getTempFilePath (cm : CacheManagerM) (itemKey filename : String) : String :=
  joinP (getItemCacheDir cm itemKey) (filename ++ ".downloading")

/-- `CacheManager.saveFromStream` (part_007 lines 197-235), completed run:
stream the payload into the `.downloading` temp path, rename it onto the
final path once the stream finished, then write the sidecar. -/
def saveFromStream (d : Disk) (cm : CacheManagerM) (itemKey filename : String)
    (content : String) (meta : CacheMetaInput) (nowISO : String) : Disk × String :=
  let tempPath := getTempFilePath cm itemKey filename
  let finalPath := joinP (getItemCacheDir cm itemKey) filename
  let d1 := writeD d tempPath (.bin content)
  let d2 := writeD (eraseD d1 tempPath) finalPath (.bin content)
  let fullMeta : CacheMeta :=
    { version := meta.version, downloadedAt := nowISO,
      filename := meta.filename, contentType := meta.contentType,
      size := meta.size }
  let d3 := writeD d2 (getMetaPath cm itemKey) (.metaF fullMeta)
  (d3, finalPath)

/-- A `saveFromStream` call that aborts while streaming: only the temp
path holds a prefix of the payload; rename and sidecar write never run. -/
def saveFromStreamAborted (d : Disk) (cm : CacheManagerM)
    (itemKey filename : String) (content : String) (j : Nat) : Disk :=
  writeD d (getTempFilePath cm itemKey filename) (.bin (content.take j))

/-- Response headers with the given `Last-Modified-Version`, `Backoff` and
`Retry-After` values (`Total-Results` absent). -/
def mkHeaders (v b ra : Option Nat) : ZoteroResponseHeaders :=
  { totalResults := none, lastModifiedVersion := v, backoff := b, retryAfter := ra }

/-- A response with the given status and headers and an empty body. -/
def mkResp (status : Nat) (v b ra : Option Nat) : Response :=
  { status := status, headers := mkHeaders v b ra, body := "" }

deriving instance DecidableEq for Except

/-- A concrete cache-manager identity used by the concrete scenarios. -/
def cmDemo : CacheManagerM :=
  { cacheDir := "/c", libraryScope := "user_1" }

/-- The caller-supplied sidecar fields of the first (version 1) download. -/
def metaV1In : CacheMetaInput :=
  { version := 1, filename := "f.pdf", contentType := "application/pdf", size := 10 }

/-- The sidecar record `save` writes for `metaV1In`. -/
def metaV1 : CacheMeta :=
  { version := 1, downloadedAt := "t0", filename := "f.pdf",
    contentType := "application/pdf", size := 10 }

/-- The disk after one successful `save` of item `K` at version 1. -/
def diskSavedV1 : Disk :=
  (save (fun _ => none) cmDemo "K" "f.pdf" "v1-content" metaV1In "t0").1

/-- `diskSavedV1` after a second `save` of new version-2 content for the
same item and filename aborted two bytes into `writeFile`. -/
def diskAbortedV2 : Disk :=
  saveAbortedDuringWrite diskSavedV1 cmDemo "K" "f.pdf" "v2-content!" 2

/-- Helper: the `libraryVersion` a full `request` pass leaves behind is the
header value when the response carries `Last-Modified-Version`, and the
previous value otherwise — independently of status, backoff and timing. -/
theorem requestWithThrottle_libraryVersion (st : ClientState) (t : Int) (r : Response) :
    ((requestWithThrottle st t r).1).libraryVersion =
      match r.headers.lastModifiedVersion with
      | some v => some v
      | none => st.libraryVersion := by
  unfold requestWithThrottle requestStep throttle
  dsimp only
  split <;> (try split) <;> (try split) <;> rfl

/-- C1, counterexample: a client that sees version header 5 and then a
stale response with version header 3 ends with `libraryVersion = 3`, not
the maximum 5 — after the first response it was 5, so the tracked version
decreased, contradicting the claimed max/monotonicity invariant. -/
theorem zoteroClient_version_not_max_counterexample :
    (runRequests ClientState.initial
      [(0, mkResp 200 (some 5) none none), (2000, mkResp 200 (some 3) none none)]).libraryVersion
      = some 3 ∧
    (runRequests ClientState.initial
      [(0, mkResp 200 (some 5) none none)]).libraryVersion = some 5 ∧
    (some 3 : Option Nat) ≠ some (max 5 3) := by decide

/-- C1, amended: the client stores each `Last-Modified-Version` header
unconditionally (the server is treated as authoritative), so after any
sequence of `request` calls the tracked `libraryVersion` equals the last
header value seen — not the maximum — and `updateItem`'s direct PATCH path
performs the same unconditional assignment on success. -/
theorem zoteroClient_version_last_writer_wins :
    (∀ (st : ClientState) (evs : List (Int × Response)),
      (runRequests st evs).libraryVersion = lastVersionHeader evs st.libraryVersion) ∧
    (∀ (st : ClientState) (r : Response),
      ((updateItemPatchStep st r).1).libraryVersion =
        if responseOk r.status then
          (match r.headers.lastModifiedVersion with
           | some v => some v
           | none => st.libraryVersion)
        else st.libraryVersion) := by
  constructor
  · intro st evs
    induction evs generalizing st with
    | nil => rfl
    | cons e rest ih =>
      simp only [runRequests, lastVersionHeader, List.foldl_cons] at *
      rw [ih]
      congr 1
      rw [requestWithThrottle_libraryVersion]
  · intro st r
    unfold updateItemPatchStep
    split
    · cases r.headers.lastModifiedVersion <;> rfl
    · rfl

/-- C4, counterexample: with `backoffUntil = 1500`, `lastRequestTime =
500`, interval 1000 and `now = 1000`, the remaining backoff is 500 and the
remaining inter-request interval is 500, so the claimed suspension
(`the larger of the two`) is 500 — but `throttle` sleeps the two waits in
sequence and suspends for 1000. -/
theorem throttle_not_max_counterexample :
    (throttle { libraryVersion := none, lastRequestTime := 500,
                backoffUntil := 1500, requestInterval := 1000 } 1000).2 = 1000 ∧
    max ((1500 : Int) - 1000) (1000 - (1000 - 500)) = 500 ∧
    (1000 : Int) ≠ 500 := by decide

/-- C4, amended: before a request the client suspends for the SUM of (a)
the time remaining until `backoffUntil` and (b) the time remaining to
complete the minimum inter-request interval since `lastRequestTime` (both
measured from the entry-time clock, each zero when already elapsed) — the
larger of the two only when at most one is positive — and then records the
post-sleep clock as the new `lastRequestTime`, leaving every other field
unchanged. -/
theorem throttle_sequential_wait_sum :
    ∀ (st : ClientState) (now : Int),
      (throttle st now).2 =
        max (st.backoffUntil - now) 0
          + max (st.requestInterval - (now - st.lastRequestTime)) 0 ∧
      ((throttle st now).1).lastRequestTime = now + (throttle st now).2 ∧
      ((throttle st now).1).backoffUntil = st.backoffUntil ∧
      ((throttle st now).1).libraryVersion = st.libraryVersion ∧
      ((throttle st now).1).requestInterval = st.requestInterval := by
  intro st now
  unfold throttle
  dsimp only
  refine ⟨?_, ?_, rfl, rfl, rfl⟩ <;> (split <;> split <;> omega)

/-- C5, counterexample: an `updateItem` whose PATCH is answered 429 with a
`Backoff: 30` header raises the generic `Zotero API error (429)` carrying
no wait duration, and leaves `backoffUntil` at 0 instead of extending it
to `now + 30s` — so neither the 429 contract nor the
`every response carrying a cooldown signal` contract holds for this
operation. -/
theorem rateLimit_handling_not_universal_counterexample :
    (updateItem ClientState.initial 0 2000 (mkResp 200 none none none)
        (mkResp 429 none (some 30) none) "x").2
      = .error (.apiError 429 "") ∧
    ((updateItem ClientState.initial 0 2000 (mkResp 200 none none none)
        (mkResp 429 none (some 30) none) "x").1).backoffUntil = 0 ∧
    (Except.error (ClientError.apiError 429 "") : Except ClientError Unit)
      ≠ .error (.rateLimited 30) ∧
    (0 : Int) ≠ 2000 + 30 * 1000 := by decide

/-- C5, amended: the 429/cooldown contract holds exactly for the
operations that go through `request`: there a 429 raises the rate-limit
error carrying `retryAfter || backoff || 5` seconds and sets `backoffUntil`
to now plus that wait, and any non-429 response with a truthy cooldown
header sets `backoffUntil` to now + cooldown whether or not the call
succeeded; `updateItem`'s direct PATCH path instead maps every non-ok
status (429 included) to the generic API error and never touches
`backoffUntil`. -/
theorem rateLimit_handling_request_vs_patch :
    (∀ (st : ClientState) (now : Int) (r : Response), r.status = 429 →
      (requestStep st now r).2 =
        .error (.rateLimited (jsOrNat r.headers.retryAfter (jsOrNat r.headers.backoff 5))) ∧
      ((requestStep st now r).1).backoffUntil =
        now + (jsOrNat r.headers.retryAfter (jsOrNat r.headers.backoff 5) : Int) * 1000) ∧
    (∀ (st : ClientState) (now : Int) (r : Response), r.status ≠ 429 →
      isTruthy r.headers.backoff = true →
      ((requestStep st now r).1).backoffUntil = now + (r.headers.backoff.getD 0 : Int) * 1000) ∧
    (∀ (st : ClientState) (r : Response), responseOk r.status = false →
      (updateItemPatchStep st r).1 = st ∧
      (updateItemPatchStep st r).2 = .error (.apiError r.status r.body)) := by
  refine ⟨?_, ?_, ?_⟩
  · intro st now r h
    unfold requestStep
    rw [if_pos h]
    exact ⟨rfl, rfl⟩
  · intro st now r h429 htruthy
    unfold requestStep
    rw [if_neg h429]
    dsimp only
    rw [if_pos htruthy]
    split <;> rfl
  · intro st r h
    unfold updateItemPatchStep
    rw [if_neg (by simp [h])]
    exact ⟨rfl, rfl⟩

/-- C5, witness: the amended theorem instantiated — a bare 429 through
`request` yields the rate-limit error with the default 5 s wait, a 200
with `Backoff: 7` extends `backoffUntil` to now + 7000 ms, and a failed
PATCH (412) leaves the state untouched with the generic error. -/
theorem rateLimit_handling_request_vs_patch_witness :
    ((requestStep ClientState.initial 0 (mkResp 429 none none none)).2
        = .error (.rateLimited 5) ∧
      ((requestStep ClientState.initial 0 (mkResp 429 none none none)).1).backoffUntil
        = 0 + (5 : Int) * 1000) ∧
    ((requestStep ClientState.initial 0 (mkResp 200 none (some 7) none)).1).backoffUntil
      = 0 + (7 : Int) * 1000 ∧
    ((updateItemPatchStep ClientState.initial (mkResp 412 none none none)).1
        = ClientState.initial ∧
      (updateItemPatchStep ClientState.initial (mkResp 412 none none none)).2
        = .error (.apiError 412 "")) := by
  refine ⟨?_, ?_, ?_⟩
  · exact rateLimit_handling_request_vs_patch.1 ClientState.initial 0
      (mkResp 429 none none none) (by decide)
  · exact rateLimit_handling_request_vs_patch.2.1 ClientState.initial 0
      (mkResp 200 none (some 7) none) (by decide) (by decide)
  · exact rateLimit_handling_request_vs_patch.2.2 ClientState.initial
      (mkResp 412 none none none) (by decide)

/-- C3: `CacheManager.isValid(itemKey, expectedVersion)` returns true
exactly when the metadata sidecar exists and parses, its recorded version
equals `expectedVersion`, and the file the sidecar names is present on
disk; any missing/unparseable sidecar, version mismatch or missing file
yields false (a cache miss).  The function is total, so no input makes it
raise. -/
theorem cacheManager_isValid_characterization :
    ∀ (d : Disk) (cm : CacheManagerM) (itemKey : String) (v : Nat),
      isValid d cm itemKey v = true ↔
        ∃ m : CacheMeta, getMeta d cm itemKey = some m ∧ m.version = v ∧
          fileExistsAt d (joinP (getItemCacheDir cm itemKey) m.filename) = true := by
  intro d cm k v
  unfold isValid
  cases h : getMeta d cm k with
  | none => simp
  | some m =>
    by_cases hv : m.version = v
    · simp [hv]
    · simp [hv]

/-- C9: `getCachedFilePath` returns the sidecar-named path whenever the
sidecar parses and the file exists, with no condition on the recorded
version — and there is a disk state on which `isValid` reports a stale
entry (`false` for the requested version) while `getCachedFilePath` still
hands out the old binary's path. -/
theorem getCachedFilePath_ignores_version :
    (∀ (d : Disk) (cm : CacheManagerM) (itemKey : String) (m : CacheMeta),
      getMeta d cm itemKey = some m →
      fileExistsAt d (joinP (getItemCacheDir cm itemKey) m.filename) = true →
      getCachedFilePath d cm itemKey
        = some (joinP (getItemCacheDir cm itemKey) m.filename)) ∧
    (∃ (d : Disk) (cm : CacheManagerM) (itemKey : String) (v : Nat) (p : String),
      getCachedFilePath d cm itemKey = some p ∧ isValid d cm itemKey v = false) := by
  constructor
  · intro d cm k m hm hex
    unfold getCachedFilePath
    rw [hm]
    dsimp only
    rw [if_pos hex]
  · exact ⟨diskSavedV1, cmDemo, "K", 2, joinP (getItemCacheDir cmDemo "K") "f.pdf",
      by decide, by decide⟩

/-- C9, witness: on the concrete version-1 cache entry, `getCachedFilePath`
returns the stored path. -/
theorem getCachedFilePath_ignores_version_witness :
    getCachedFilePath diskSavedV1 cmDemo "K"
      = some (joinP (getItemCacheDir cmDemo "K") metaV1.filename) :=
  getCachedFilePath_ignores_version.1 diskSavedV1 cmDemo "K" metaV1 (by decide) (by decide)

/-- C6: `save` writes the binary directly to its final path, so a save of
new version-2 content aborted mid-write over an existing version-1 entry
leaves the old sidecar pointing at a half-written file — `isValid(K, 1)`
still reports a hit and `getCachedFilePath` returns the corrupt file (its
content `"v2"` is a strict prefix of the intended `"v2-content!"`).  Only
`saveFromStream` uses the temp-then-rename discipline the claim describes:
the same abort through it touches only the `.downloading` path and leaves
the valid version-1 entry intact. -/
theorem save_partial_write_visible_as_cache_hit :
    isValid diskAbortedV2 cmDemo "K" 1 = true ∧
    getCachedFilePath diskAbortedV2 cmDemo "K" = some "/c/files/user_1/K/f.pdf" ∧
    diskAbortedV2 "/c/files/user_1/K/f.pdf" = some (.bin "v2") ∧
    "v2" ≠ "v2-content!" ∧
    (saveFromStreamAborted diskSavedV1 cmDemo "K" "f.pdf" "v2-content!" 2)
        "/c/files/user_1/K/f.pdf" = some (.bin "v1-content") ∧
    isValid (saveFromStreamAborted diskSavedV1 cmDemo "K" "f.pdf" "v2-content!" 2)
        cmDemo "K" 1 = true := by decide

/-- C7, counterexample: the dedup set is built from the item's EXISTING
tags only, so an input list that repeats a fresh name keeps both copies:
`addTagsToItem([], ["b", "b"])` writes back the tag `b` twice. -/
theorem addTagsToItem_duplicate_input_counterexample :
    addTagsToItem [] ["b", "b"] = [{ tag := "b" }, { tag := "b" }] ∧
    ((addTagsToItem [] ["b", "b"]).map ZTag.tag).count "b" = 2 ∧
    ¬ List.Nodup ((addTagsToItem [] ["b", "b"]).map ZTag.tag) := by decide

/-- Helper: the tag names `addTagsToItem` writes back are the existing
names followed by the input names that are not already present. -/
theorem addTagsToItem_names (existingTags : List ZTag) (tags : List String) :
    (addTagsToItem existingTags tags).map ZTag.tag
      = existingTags.map ZTag.tag
        ++ tags.filter (fun t => !((existingTags.map ZTag.tag).contains t)) := by
  unfold addTagsToItem
  rw [List.map_append, List.map_map]
  congr 1
  exact List.map_id _

/-- C7, amended: the merge deduplicates against the existing tag set by
exact case-sensitive string match, so it behaves as a set union whenever
each input list is itself duplicate-free: duplicate-free inputs keep the
written list duplicate-free, and on a fresh item `[a, b]` followed by
`[b, c]` (a, b, c pairwise distinct) yields exactly the tags `[a, b, c]`
with no duplicate `b`; an input list repeating a fresh name, however,
writes that name once per repetition. -/
theorem addTagsToItem_union_amended :
    (∀ (existingTags : List ZTag) (tags : List String),
      List.Nodup (existingTags.map ZTag.tag) → List.Nodup tags →
      List.Nodup ((addTagsToItem existingTags tags).map ZTag.tag)) ∧
    (∀ a b c : String, a ≠ b → b ≠ c → a ≠ c →
      (addTagsToItem (addTagsToItem [] [a, b]) [b, c]).map ZTag.tag = [a, b, c]) := by
  constructor
  · intro E ts hE hts
    rw [addTagsToItem_names]
    rw [List.nodup_append]
    refine ⟨hE, hts.filter _, ?_⟩
    intro x hxE hxF
    rw [List.mem_filter] at hxF
    have h2 := hxF.2
    rw [Bool.not_eq_true'] at h2
    have hmem : List.elem x (E.map ZTag.tag) = true := List.elem_iff.mpr hxE
    rw [show (E.map ZTag.tag).contains x = List.elem x (E.map ZTag.tag) from rfl] at h2
    rw [hmem] at h2
    exact absurd h2 (by simp)
  · intro a b c hab hbc hac
    rw [addTagsToItem_names, addTagsToItem_names]
    simp only [List.map_nil, List.nil_append, List.filter_cons, List.filter_nil]
    simp [List.contains, hab, hbc, hac, Ne.symm hab, Ne.symm hbc, Ne.symm hac]

/-- C7, witness: the amended theorem instantiated at duplicate-free
concrete inputs: adding `["y"]` to an item tagged `x` stays
duplicate-free, and `["a","b"]` then `["b","c"]` on a fresh item yields
exactly `[a, b, c]`. -/
theorem addTagsToItem_union_amended_witness :
    List.Nodup ((addTagsToItem [{ tag := "x" }] ["y"]).map ZTag.tag) ∧
    (addTagsToItem (addTagsToItem [] ["a", "b"]) ["b", "c"]).map ZTag.tag
      = ["a", "b", "c"] :=
  ⟨addTagsToItem_union_amended.1 [{ tag := "x" }] ["y"] (by decide) (by decide),
   addTagsToItem_union_amended.2 "a" "b" "c" (by decide) (by decide) (by decide)⟩

/-- C8: `TranslationClient.isAvailable` reports the service up exactly
when the probe was answered with a success (2xx) status or with 404, and
reports false on a connection failure; being a total `Bool`-valued
function, it never raises for any state of the remote service. -/
theorem translationClient_isAvailable_characterization :
    (∀ status : Nat,
      isAvailable (.answered status) = true
        ↔ ((200 ≤ status ∧ status < 300) ∨ status = 404)) ∧
    isAvailable .connectionFailed = false := by
  constructor
  · intro s
    simp [isAvailable, responseOk]
  · rfl

/-- C10: when `updateItem`'s PATCH comes back with a non-success status,
the client throws the generic API error before the
`Last-Modified-Version` header of that response is ever read, so the
tracked `libraryVersion` is exactly what the preceding `getItem` request
left it at; `deleteItem` is literally `updateItem` with body
`{"deleted":1}` and inherits the property. -/
theorem updateItem_failed_patch_preserves_version :
    ∀ (st : ClientState) (t1 t2 : Int) (getResp patchResp : Response) (body : String)
      (hs : ZoteroResponseHeaders),
      (requestWithThrottle st t1 getResp).2 = .ok hs →
      responseOk patchResp.status = false →
      ((updateItem st t1 t2 getResp patchResp body).1).libraryVersion
        = ((requestWithThrottle st t1 getResp).1).libraryVersion ∧
      (updateItem st t1 t2 getResp patchResp body).2
        = .error (.apiError patchResp.status patchResp.body) ∧
      deleteItem st t1 t2 getResp patchResp
        = updateItem st t1 t2 getResp patchResp "\x7b\"deleted\":1\x7d" := by
  intro st t1 t2 g p body hs hok hbad
  refine ⟨?_, ?_, rfl⟩ <;>
  · unfold updateItem
    dsimp only
    rw [hok]
    dsimp only
    unfold updateItemPatchStep
    rw [if_neg (by simp [hbad])]
    try simp [throttle]

/-- C10, witness: a successful GET carrying version 41 followed by a PATCH
rejected with 412 that even carries version header 99 — the client keeps
`libraryVersion` at the GET's value and raises the generic 412 error, and
`deleteItem` coincides with the corresponding `updateItem`. -/
theorem updateItem_failed_patch_preserves_version_witness :
    ((updateItem ClientState.initial 0 2000 (mkResp 200 (some 41) none none)
        (mkResp 412 (some 99) none none) "u").1).libraryVersion
      = ((requestWithThrottle ClientState.initial 0
          (mkResp 200 (some 41) none none)).1).libraryVersion ∧
    (updateItem ClientState.initial 0 2000 (mkResp 200 (some 41) none none)
        (mkResp 412 (some 99) none none) "u").2
      = .error (.apiError 412 "") ∧
    deleteItem ClientState.initial 0 2000 (mkResp 200 (some 41) none none)
        (mkResp 412 (some 99) none none)
      = updateItem ClientState.initial 0 2000 (mkResp 200 (some 41) none none)
          (mkResp 412 (some 99) none none) "\x7b\"deleted\":1\x7d" :=
  updateItem_failed_patch_preserves_version ClientState.initial 0 2000
    (mkResp 200 (some 41) none none) (mkResp 412 (some 99) none none) "u"
    (mkHeaders (some 41) none none) (by decide) (by decide)

/-- Helper: the clamped chunk size is always within [1000, 50000]. -/
theorem actualLimit_bounds (limit : Int) :
    1000 ≤ actualLimit limit ∧ actualLimit limit ≤ 50000 := by
  unfold actualLimit
  omega

/-- Helper: the clamped offset never exceeds the text length. -/
theorem actualOffset_le (offset : Int) (T : Nat) : actualOffset offset T ≤ T := by
  unfold actualOffset
  omega

/-- Helper: clamping is the identity on an in-range natural offset. -/
theorem actualOffset_nat (n T : Nat) (h : n ≤ T) : actualOffset (n : Int) T = n := by
  unfold actualOffset
  omega

/-- Helper: the chunk `getItemFulltext` produces at an in-range natural
offset, field by field. -/
theorem getItemFulltext_nat_spec (full : List Char) (n : Nat) (limit : Int)
    (h : n ≤ full.length) :
    (getItemFulltext full (n : Int) limit).content
        = (full.drop n).take (actualLimit limit) ∧
    (getItemFulltext full (n : Int) limit).offset = n ∧
    (getItemFulltext full (n : Int) limit).nextOffset =
      (if n + ((full.drop n).take (actualLimit limit)).length < full.length
       then some (n + ((full.drop n).take (actualLimit limit)).length) else none) := by
  unfold getItemFulltext
  dsimp only
  rw [actualOffset_nat n full.length h]
  exact ⟨rfl, rfl, rfl⟩

/-- Helper: following `nextOffset` from any in-range offset and
concatenating the chunks reconstructs the rest of the text exactly, for
any fuel exceeding the remaining length. -/
theorem paginateFrom_join (full : List Char) (limit : Int) :
    ∀ (fuel off : Nat), off ≤ full.length → full.length - off < fuel →
      (paginateFrom full limit off fuel).flatten = full.drop off := by
  intro fuel
  induction fuel with
  | zero =>
    intro off h1 h2
    omega
  | succ fuel ih =>
    intro off hoff hfuel
    unfold paginateFrom
    dsimp only
    obtain ⟨hc, ho, hn⟩ := getItemFulltext_nat_spec full off limit hoff
    have hL := (actualLimit_bounds limit).1
    have hlen : ((full.drop off).take (actualLimit limit)).length
        = min (actualLimit limit) (full.length - off) := by
      rw [List.length_take, List.length_drop]
    by_cases hm : off + ((full.drop off).take (actualLimit limit)).length < full.length
    · rw [hn, if_pos hm]
      dsimp only
      rw [hc]
      rw [List.flatten_cons]
      rw [ih (off + ((full.drop off).take (actualLimit limit)).length)
        (by omega) (by omega)]
      rw [← List.drop_drop]
      have hdl : (full.drop off).drop ((full.drop off).take (actualLimit limit)).length
          = (full.drop off).drop (actualLimit limit) := by
        rcases le_or_lt (actualLimit limit) (full.length - off) with h' | h'
        · congr 1
          omega
        · rw [List.drop_eq_nil_iff.mpr (by rw [List.length_drop]; omega),
              List.drop_eq_nil_iff.mpr (by rw [List.length_drop]; omega)]
      rw [hdl, List.take_append_drop]
    · rw [hn, if_neg hm]
      dsimp only
      rw [hc]
      rw [show [(full.drop off).take (actualLimit limit)].flatten
          = (full.drop off).take (actualLimit limit) by
        rw [List.flatten_cons, List.flatten_nil, List.append_nil]]
      exact List.take_of_length_le (by rw [List.length_drop]; omega)

/-- C2: `getItemFulltext` clamps the effective chunk size to [1000, 50000]
and the effective offset to [0, T] (the offset is a natural number, so the
lower bound is inherent); whenever a chunk reports `nextOffset = some n`
the chunk fetched at `n` reports offset exactly `n`; and the pagination
loop started at offset 0 and followed until `hasMore` is false
concatenates to the full text exactly — no character duplicated or
skipped. -/
theorem getItemFulltext_pagination_round_trip (full : List Char) (offset limit : Int)
    (n : Nat) (h : (getItemFulltext full offset limit).nextOffset = some n) :
    (1000 ≤ actualLimit limit ∧ actualLimit limit ≤ 50000) ∧
    actualOffset offset full.length ≤ full.length ∧
    (getItemFulltext full (n : Int) limit).offset = n ∧
    (paginateFrom full limit 0 (full.length + 1)).flatten = full := by
  refine ⟨actualLimit_bounds limit, actualOffset_le offset full.length, ?_, ?_⟩
  · unfold getItemFulltext at h
    dsimp only at h
    split at h
    · next hm =>
      injection h with h'
      obtain ⟨_, ho, _⟩ := getItemFulltext_nat_spec full n limit (by omega)
      exact ho
    · exact Option.noConfusion h
  · have hj := paginateFrom_join full limit (full.length + 1) 0 (Nat.zero_le _) (by omega)
    simpa using hj

set_option maxRecDepth 10000 in
/-- C2, witness: a 1001-character text paginated with requested chunk size
1000 — the first chunk reports `nextOffset = some 1000`, the second chunk
reports offset 1000, and the loop reconstructs the text. -/
theorem getItemFulltext_pagination_round_trip_witness :
    (1000 ≤ actualLimit 1000 ∧ actualLimit 1000 ≤ 50000) ∧
    actualOffset 0 (List.replicate 1001 'a').length ≤ (List.replicate 1001 'a').length ∧
    (getItemFulltext (List.replicate 1001 'a') ((1000 : Nat) : Int) 1000).offset = 1000 ∧
    (paginateFrom (List.replicate 1001 'a') 1000 0
        ((List.replicate 1001 'a').length + 1)).flatten = List.replicate 1001 'a' :=
  getItemFulltext_pagination_round_trip (List.replicate 1001 'a') 0 1000 1000 (by decide)
